import Mathlib

/-!
Verification of the Cognosis MetaCoordinator (src/ai/agents/meta_coordinator.py):
the task Router, the three execution strategies (single / parallel / sequential),
result synthesis, and the workflow-step state machine.

Python dictionaries are embedded as association lists with insertion-order
semantics: assigning to an existing key replaces the value in place, assigning
a fresh key appends it.  External collaborators (the text-generation backend,
the agents behind the registry) are parameters of the embedding; everything
inside `meta_coordinator.py` is translated directly.
-/

set_option autoImplicit false

namespace Cognosis

/-- Python `d[k]`-style lookup on an insertion-ordered dictionary,
returning `none` when the key is absent (`d.get(k)`). -/
def dictLookup {α : Type} : List (String × α) → String → Option α
  | [], _ => none
  | p :: tl, k => if p.1 = k then some p.2 else dictLookup tl k

/-- Python `d[k] = v`: replace the value in place when the key exists
(keeping its position), otherwise append the new binding. -/
def dictSet {α : Type} : List (String × α) → String → α → List (String × α)
  | [], k, v => [(k, v)]
  | p :: tl, k, v => if p.1 = k then (k, v) :: tl else p :: dictSet tl k v

/-- Python `d.update(kvs)`: fold `dictSet` over the bindings of `kvs`. -/
def dictUpdate {α : Type} (d : List (String × α)) (kvs : List (String × α)) :
    List (String × α) :=
  kvs.foldl (fun acc kv => dictSet acc kv.1 kv.2) d

/-! ## Router (`MetaCoordinator.route_task`, lines 72–119)

The routing prompt is the literal f-string built at lines 90–98; `ctxJson`
stands for `json.dumps(context) if context else 'None'` and `agentsJoined`
for `', '.join(self.agents.keys())`. -/

/-- The routing prompt of `route_task` (lines 90–98), transcribed literally. -/
def routing_prompt (task ctxJson agentsJoined : String) : String :=
  "Analyze this task and determine which agent(s) should handle it:\n\nTASK: "
    ++ task
    ++ "\n\nCONTEXT: " ++ ctxJson
    ++ "\n\nAvailable agents: " ++ agentsJoined
    ++ "\n\nDetermine the best routing strategy and specific tasks for each agent."

/-- The routing-plan dictionary as `execute_task` reads it: every field may be
absent (`routing_plan.get(...)` with a default at lines 146–148). -/
structure RoutingPlan where
  strategy : Option String := none
  agents : Option (List String) := none
  routing : Option (List (String × String)) := none
  deriving Repr, DecidableEq

/-- `MetaCoordinator.route_task` (lines 100–119).  `llm` maps the routing
prompt to the backend reply's `content`; `parse` models `json.loads` restricted
to the plan schema, returning `none` exactly when parsing fails
(`json.JSONDecodeError`).  On parse failure the hard-coded default plan of
lines 113–117 is returned — note that its `routing` entry carries the
*routing prompt*, not the bare task. -/
def route_task (llm : String → String) (parse : String → Option RoutingPlan)
    (task ctxJson agentsJoined : String) : RoutingPlan :=
  let prompt := routing_prompt task ctxJson agentsJoined
  match parse (llm prompt) with
  | some plan => plan
  | none =>
      { strategy := some "single"
        agents := some ["experiment_conductor"]
        routing := some [("experiment_conductor", prompt)] }

/-! ## Execution engine (`MetaCoordinator.execute_task`, lines 121–232)

`Ctx` embeds the task context dictionary.  The agent result dictionaries of
`_call_agent` are embedded with every field optional, mirroring which keys
each literal dict carries.  External collaborators are parameters of
`TaskEnv`: the registered conductor agent's `chat` and the synthesis
backend's reply `content`.  The routing backend of `route_task` is covered by
`route_task` above; `execute_task` here takes the resulting plan. -/

abbrev Ctx : Type := List (String × String)

/-- A per-agent result dictionary (`response` / `error` / `agent` keys, each
present or absent depending on the branch of `_call_agent` that built it). -/
structure AgentResult where
  response : Option String := none
  error : Option String := none
  agent : Option String := none
  deriving Repr, DecidableEq, Inhabited

/-- External collaborators of the execution engine. -/
structure TaskEnv where
  /-- The keys of the coordinator's `self.agents` registry. -/
  registry : List String
  /-- Behaviour of the registered `experiment_conductor` agent's `chat`
  (task content, metadata context ↦ result). -/
  conductor_chat : String → Ctx → AgentResult
  /-- The synthesis backend: prompt ↦ reply `content`
  (`llm.chat_completion` at lines 313–318). -/
  synth_content : String → String

/-- `MetaCoordinator._call_agent` (lines 234–273). -/
def call_agent (env : TaskEnv) (agent_name task : String) (context : Ctx) :
    AgentResult :=
  if ¬ env.registry.contains agent_name then
    { response := some ("Agent '" ++ agent_name ++ "' not available")
      error := some "agent_not_found" }
  else if agent_name = "experiment_conductor" then
    env.conductor_chat task context
  else if agent_name = "data_analyst" then
    { response := some "DataAnalyst integration pending for this task type"
      agent := some agent_name }
  else
    { response := some ("Unknown agent interface: " ++ agent_name)
      error := some "unknown_interface" }

/-- One `_call_agent` invocation as observed from the outside: which agent,
with which sub-task and which context, and what it returned. -/
structure InvocationRec where
  agent_name : String
  task : String
  context : Ctx
  result : AgentResult
  deriving Repr, DecidableEq

/-- The sub-task assigned to an agent: `agent_tasks.get(agent_name, task)`
(lines 156, 172, 185). -/
def assigned_task (routing : List (String × String)) (agent_name task : String) :
    String :=
  (dictLookup routing agent_name).getD task

/-- The `single` branch of `execute_task` (lines 153–165). -/
def run_single (env : TaskEnv) (agents_to_use : List String)
    (routing : List (String × String)) (task : String) (context : Ctx) :
    List (String × AgentResult) × List InvocationRec :=
  let agent_name := match agents_to_use with
    | [] => "experiment_conductor"
    | a :: _ => a
  let agent_task := assigned_task routing agent_name task
  let r := call_agent env agent_name agent_task context
  ([(agent_name, r)], [⟨agent_name, agent_task, context, r⟩])

/-- The completion events of `asyncio.gather`: the submitted coroutines
finish in the order given by the schedule `σ` (a permutation of the
submission indices), each completion carrying its submission index. -/
def gather_completions (calls : List AgentResult) (σ : List Nat) :
    List (Nat × AgentResult) :=
  σ.map (fun j => (j, calls.getD j default))

/-- `asyncio.gather` (line 177): whatever order the completions arrive in,
the returned list is re-assembled by submission index, so it lines up with
the submitted task list. -/
def gather (calls : List AgentResult) (σ : List Nat) : List AgentResult :=
  (List.range calls.length).filterMap
    (fun i => ((gather_completions calls σ).find? (fun p => p.1 = i)).map (·.2))

/-- The `parallel` branch of `execute_task` (lines 167–179): build the task
list in `agents_to_use` order, gather under completion schedule `σ`, then zip
results back to the agent names. -/
def run_parallel (env : TaskEnv) (agents_to_use : List String)
    (routing : List (String × String)) (task : String) (context : Ctx)
    (σ : List Nat) : List (String × AgentResult) × List InvocationRec :=
  let pairs := agents_to_use.map (fun a => (a, assigned_task routing a task))
  let calls := pairs.map (fun p => call_agent env p.1 p.2 context)
  let results := gather calls σ
  let agent_results :=
    (agents_to_use.zip results).foldl (fun acc p => dictSet acc p.1 p.2) []
  (agent_results, pairs.map (fun p => ⟨p.1, p.2, context, call_agent env p.1 p.2 context⟩))

/-- The body of the `sequential` loop (lines 183–200), written as a direct
recursion over the remaining agents.  `prev` carries `previous_output`
(initially `None`, then `result.get("response", "")`; both `None` and the
empty string fail the `if previous_output:` truthiness test, so they are
collapsed to `""`). -/
def seq_trace (env : TaskEnv) (routing : List (String × String)) (task : String)
    (context : Ctx) : List String → String → List InvocationRec
  | [], _ => []
  | a :: rest, prev =>
    let agent_task := assigned_task routing a task
    let enhanced := if prev = "" then context
      else dictSet context "previous_agent_output" prev
    let r := call_agent env a agent_task enhanced
    ⟨a, agent_task, enhanced, r⟩ :: seq_trace env routing task context rest (r.response.getD "")

/-- The `sequential` branch of `execute_task` (lines 181–200): the invocation
trace of `seq_trace`, with the `agent_results` dictionary accumulated by
`agent_results[agent_name] = result` in invocation order. -/
def run_sequential (env : TaskEnv) (agents_to_use : List String)
    (routing : List (String × String)) (task : String) (context : Ctx) :
    List (String × AgentResult) × List InvocationRec :=
  let recs := seq_trace env routing task context agents_to_use ""
  (recs.foldl (fun acc rec => dictSet acc rec.agent_name rec.result) [], recs)

/-- The strategy dispatch of `execute_task` (lines 152–200): an unknown
strategy matches no branch and leaves `agent_results` empty. -/
def run_strategy (env : TaskEnv) (strategy : String) (agents_to_use : List String)
    (routing : List (String × String)) (task : String) (context : Ctx)
    (σ : List Nat) : List (String × AgentResult) × List InvocationRec :=
  if strategy = "single" then run_single env agents_to_use routing task context
  else if strategy = "parallel" then run_parallel env agents_to_use routing task context σ
  else if strategy = "sequential" then run_sequential env agents_to_use routing task context
  else ([], [])

/-- Label-and-join of the agent responses (lines 293–296). -/
def agent_responses_text (results : List (String × AgentResult)) : String :=
  String.intercalate "\n\n"
    (results.map (fun p => "**" ++ p.1 ++ "**: " ++ (p.2.response.getD "")))

/-- The synthesis prompt of `_synthesize_results` (lines 298–311),
transcribed literally. -/
def synthesis_prompt (original_task : String)
    (results : List (String × AgentResult)) : String :=
  "Synthesize these agent responses into a coherent, helpful answer:\n\nORIGINAL TASK: "
    ++ original_task
    ++ "\n\nAGENT RESPONSES:\n" ++ agent_responses_text results
    ++ "\n\nCreate a unified response that:\n1. Addresses the original task completely\n2. Integrates insights from all agents\n3. Maintains scientific accuracy\n4. Is clear and concise\n\nReturn only the synthesized response, no meta-commentary."

/-- Lines 202–212 of `execute_task`: synthesize when more than one agent
result, otherwise pass through `agent_results[keys[0]].get("response", "")`.
`list(agent_results.keys())[0]` on an empty dictionary raises `IndexError`
("list index out of range"); the second component records the prompts of the
synthesis backend calls made. -/
def final_response_step (env : TaskEnv) (task : String)
    (agent_results : List (String × AgentResult)) :
    Except String (String × List String) :=
  if agent_results.length > 1 then
    let p := synthesis_prompt task agent_results
    .ok (env.synth_content p, [p])
  else
    match agent_results with
    | [] => .error "list index out of range"
    | (_, r) :: _ => .ok (r.response.getD "", [])

/-- The generic apology of the top-level exception handler (line 229). -/
def apology : String :=
  "I encountered an error coordinating this task. Please try again."

/-- The coordination outcome dictionary (lines 218–225 on success,
lines 228–232 on a caught fault); absent keys are `none`. -/
structure Outcome where
  response : String
  strategy : String
  agents_used : Option (List String) := none
  agent_results : Option (List (String × AgentResult)) := none
  error : Option String := none
  deriving Repr, DecidableEq

/-- Lines 146–150 of `execute_task`: read the plan fields with their
defaults and run the strategy dispatch. -/
def planned_run (env : TaskEnv) (plan : RoutingPlan) (task : String)
    (context : Ctx) (σ : List Nat) :
    List (String × AgentResult) × List InvocationRec :=
  run_strategy env (plan.strategy.getD "single") (plan.agents.getD [])
    (plan.routing.getD []) task context σ

/-- `MetaCoordinator.execute_task` (lines 121–232) after routing: the plan is
read with the defaults of lines 146–148, the strategy branch runs, then the
synthesis/passthrough step; a raised fault is converted to the apology
outcome with `strategy = "error"`.  Besides the outcome, the invocation
trace and the synthesis-backend call trace are returned. -/
def execute_task (env : TaskEnv) (plan : RoutingPlan) (task : String)
    (context : Ctx) (σ : List Nat) :
    Outcome × List InvocationRec × List String :=
  let strategy := plan.strategy.getD "single"
  let sr := planned_run env plan task context σ
  match final_response_step env task sr.1 with
  | .ok r =>
      ({ response := r.1, strategy := strategy,
         agents_used := some (plan.agents.getD []),
         agent_results := some sr.1 }, sr.2, r.2)
  | .error e =>
      ({ response := apology, strategy := "error", error := some e }, sr.2, [])

/-- The `_call_agent` result for an unregistered agent name
(lines 243–247). -/
def not_found_result (name : String) : AgentResult :=
  { response := some ("Agent '" ++ name ++ "' not available")
    error := some "agent_not_found" }

/-! ## Workflow executor (`MetaCoordinator.execute_workflow`, lines 322–414)

Step handlers produce dictionaries with heterogeneous values (`Value`:
strings or numbers; the float `0.75` of `_execute_ai_scoring` is embedded as
the rational `3/4`).  Wall-clock quantities (`time.time()`-derived durations,
`datetime.utcnow()` timestamps) are not embeddable as values; the embedding
records *which fields* each log entry carries, which is what the claims are
about, and keeps the time-derived suffixes of the mock hashes as an
environment parameter. -/

/-- A value stored in `collected_data` / `output_data`.  A numeric literal
is embedded as an integer fraction `n / d`; the only numeric literal the
handlers produce is the score `0.75 = 3 / 4`. -/
inductive Value where
  | str (s : String)
  | num (n : Int) (d : Nat)
  deriving Repr, DecidableEq

abbrev CollectedData : Type := List (String × Value)

/-- A step-handler result dictionary; every key that some handler emits is a
field, absent keys are `none`. -/
structure StepResult where
  status : String
  output_data : Option CollectedData := none
  guidance : Option Value := none
  message : Option String := none
  reason : Option String := none
  deriving Repr, DecidableEq

/-- One entry of `execution_log`, mirroring the two literal dict shapes:
lines 379–386 (success: `step_order`, `step_name`, `step_type`, `result`,
`duration_ms`, `timestamp`) and lines 395–400 (failure: `step_order`,
`step_name`, `error`, `timestamp`). -/
inductive LogEntry where
  | success (step_order : Nat) (step_name step_type : String) (result : StepResult)
  | failure (step_order : Nat) (step_name : String) (error : String)
  deriving Repr, DecidableEq

/-- The entry carries a `step_order` key (both shapes do). -/
def LogEntry.hasStepOrder : LogEntry → Bool
  | _ => true

/-- The entry carries a `step_name` key (both shapes do). -/
def LogEntry.hasStepName : LogEntry → Bool
  | _ => true

/-- The entry carries a `step_type` key (only the success shape of
lines 379–386 does). -/
def LogEntry.hasStepType : LogEntry → Bool
  | .success _ _ _ _ => true
  | .failure _ _ _ => false

/-- The entry carries a `result` key (only the success shape does). -/
def LogEntry.hasResult : LogEntry → Bool
  | .success _ _ _ _ => true
  | .failure _ _ _ => false

/-- The entry carries an `error` key (only the failure shape of
lines 395–400 does). -/
def LogEntry.hasError : LogEntry → Bool
  | .success _ _ _ _ => false
  | .failure _ _ _ => true

/-- The entry carries a `duration_ms` key (only the success shape does). -/
def LogEntry.hasDuration : LogEntry → Bool
  | .success _ _ _ _ => true
  | .failure _ _ _ => false

/-- The entry carries a `timestamp` key (both shapes do). -/
def LogEntry.hasTimestamp : LogEntry → Bool
  | _ => true

/-- A workflow step from the template (the fields of the step dicts that
`execute_workflow` and its handlers read). -/
structure WorkflowStep where
  order : Nat
  name : String
  stepType : String
  agentId : Option String := none
  deriving Repr, DecidableEq

/-- External collaborators of the workflow executor. -/
structure WfEnv where
  /-- The keys of the coordinator's `self.agents` registry. -/
  registry : List String
  /-- Behaviour of a registered agent's `provide_guidance`
  (agent id, step order, user id, collected data ↦ guidance dict, or a
  raised exception), external at line 455. -/
  provide_guidance : String → Nat → String → CollectedData → Except String CollectedData
  /-- `str(time.time())`, suffixed onto the mock hashes (lines 440, 504). -/
  time_str : String
  /-- `datetime.utcnow().isoformat()` at line 491. -/
  scored_at : String

/-- The per-step dispatch of `execute_workflow` (lines 352–376) together with
the handlers it selects (`_execute_target_generation` lines 430–443,
`_execute_guidance_step` lines 445–467, `_execute_data_capture` lines
469–478, `_execute_ai_scoring` lines 480–493, `_execute_blockchain_commit`
lines 495–506); a raised exception from `provide_guidance` propagates. -/
def dispatch_step (env : WfEnv) (user_id : String) (step : WorkflowStep)
    (data : CollectedData) : Except String StepResult :=
  if step.stepType = "target_generation" then
    .ok { status := "completed",
          output_data := some [("target_hash", .str ("mock_hash_" ++ env.time_str)),
                               ("target_type", .str "image")] }
  else if step.stepType = "participant_guidance" then
    let agent_id := step.agentId.getD "experiment_conductor"
    if env.registry.contains agent_id then
      match env.provide_guidance agent_id step.order user_id data with
      | .ok guidance =>
          .ok { status := "completed",
                guidance := some ((dictLookup guidance "message").getD (.str "")),
                output_data := some guidance }
      | .error e => .error e
    else .ok { status := "agent_not_found" }
  else if step.stepType = "data_capture" then
    .ok { status := "waiting_for_input",
          message := some "Waiting for participant response" }
  else if step.stepType = "ai_scoring" then
    .ok { status := "completed",
          output_data := some [("score", .num 3 4),
                               ("scored_at", .str env.scored_at)] }
  else if step.stepType = "blockchain_commit" then
    .ok { status := "completed",
          output_data := some [("commitment_hash", .str ("mock_commitment_" ++ env.time_str))] }
  else
    .ok { status := "skipped", reason := some "unknown_step_type" }

/-- Lines 388–390: `if result.get("output_data"):` — merge only a present,
non-empty (truthy) `output_data` into `collected_data`. -/
def apply_output (data : CollectedData) (r : StepResult) : CollectedData :=
  match r.output_data with
  | some od => if od.isEmpty then data else dictUpdate data od
  | none => data

/-- The `for step in workflow_steps:` loop of `execute_workflow`
(lines 349–401): on handler success append a success entry, merge truthy
`output_data`, increment `current_step`; on a raised fault append a failure
entry and `break`.  Returns (log, collected data, `current_step`). -/
def wf_loop (exec : WorkflowStep → CollectedData → Except String StepResult) :
    List WorkflowStep → CollectedData → List LogEntry → Nat →
    List LogEntry × CollectedData × Nat
  | [], data, log, n => (log, data, n)
  | step :: rest, data, log, n =>
    match exec step data with
    | .ok result =>
        wf_loop exec rest (apply_output data result)
          (log ++ [.success step.order step.name step.stepType result]) (n + 1)
    | .error e => (log ++ [.failure step.order step.name e], data, n)

/-- The workflow run result dictionary (lines 405–414; the wall-clock
`duration_ms` and the pass-through `template_id`/`user_id` echoes are
omitted). -/
structure WorkflowRunResult where
  status : String
  steps_completed : Nat
  total_steps : Nat
  execution_log : List LogEntry
  collected_data : CollectedData
  deriving Repr, DecidableEq

/-- `MetaCoordinator.execute_workflow` (lines 322–414) over a given step
list and step executor (`_load_workflow_template` is a TODO mock in the
source, line 416–428; the template's steps are passed in directly). -/
def run_workflow (exec : WorkflowStep → CollectedData → Except String StepResult)
    (steps : List WorkflowStep) (initial : CollectedData) : WorkflowRunResult :=
  let r := wf_loop exec steps initial [] 0
  { status := if r.2.2 = steps.length then "completed" else "failed"
    steps_completed := r.2.2
    total_steps := steps.length
    execution_log := r.1
    collected_data := r.2.1 }

/-- `execute_workflow` with the real per-step dispatch. -/
def execute_workflow (env : WfEnv) (user_id : String)
    (steps : List WorkflowStep) (initial : CollectedData) : WorkflowRunResult :=
  run_workflow (dispatch_step env user_id) steps initial

instance {ε α : Type} [DecidableEq ε] [DecidableEq α] : DecidableEq (Except ε α)
  | .ok a, .ok b =>
      if h : a = b then .isTrue (by rw [h])
      else .isFalse (fun hc => h (Except.ok.inj hc))
  | .ok _, .error _ => .isFalse (fun hc => Except.noConfusion hc)
  | .error _, .ok _ => .isFalse (fun hc => Except.noConfusion hc)
  | .error a, .error b =>
      if h : a = b then .isTrue (by rw [h])
      else .isFalse (fun hc => h (Except.error.inj hc))

/-- `runsOk exec steps data rs` holds when executing `steps` from `data`
succeeds step by step with exactly the results `rs`. -/
def runsOk (exec : WorkflowStep → CollectedData → Except String StepResult) :
    List WorkflowStep → CollectedData → List StepResult → Bool
  | [], _, [] => true
  | step :: rest, data, r :: rs =>
      decide (exec step data = .ok r) && runsOk exec rest (apply_output data r) rs
  | _, _, _ => false

/-- The success log entries of a list of steps paired with the results their
handlers returned. -/
def successEntries (pre : List WorkflowStep) (rs : List StepResult) : List LogEntry :=
  (pre.zip rs).map (fun p => .success p.1.order p.1.name p.1.stepType p.2)

/-! ## Concrete fixtures used to evaluate the definitions -/

/-- A coordinator environment whose conductor answers `"hello"` and whose
synthesis backend answers `"merged"`. -/
def sampleTaskEnv : TaskEnv :=
  { registry := ["experiment_conductor", "data_analyst"]
    conductor_chat := fun _ _ => { response := some "hello" }
    synth_content := fun _ => "merged" }

/-- A coordinator environment whose conductor answers with the empty
string. -/
def emptyRespEnv : TaskEnv :=
  { registry := ["experiment_conductor", "data_analyst"]
    conductor_chat := fun _ _ => { response := some "" }
    synth_content := fun _ => "merged" }

/-- A workflow environment whose `provide_guidance` raises `"boom"`. -/
def wfEnvFail : WfEnv :=
  { registry := ["experiment_conductor"]
    provide_guidance := fun _ _ _ _ => .error "boom"
    time_str := "0"
    scored_at := "ts" }

/-- A workflow environment whose `provide_guidance` succeeds with a one-key
guidance dictionary. -/
def wfEnvOk : WfEnv :=
  { registry := ["experiment_conductor"]
    provide_guidance := fun _ _ _ _ => .ok [("message", .str "hi")]
    time_str := "0"
    scored_at := "ts" }

/-- A routing plan with a single agent. -/
def singlePlan : RoutingPlan :=
  { strategy := some "single"
    agents := some ["experiment_conductor"]
    routing := some [("experiment_conductor", "sub")] }

/-- A routing plan fanning out to two agents in parallel. -/
def parallelPlan : RoutingPlan :=
  { strategy := some "parallel"
    agents := some ["experiment_conductor", "data_analyst"]
    routing := some [] }

/-- The spec's four-step example workflow: generation, scoring, guidance,
commit. -/
def fourSteps : List WorkflowStep :=
  [⟨0, "Gen", "target_generation", none⟩,
   ⟨1, "Score", "ai_scoring", none⟩,
   ⟨2, "Guide", "participant_guidance", some "experiment_conductor"⟩,
   ⟨3, "Commit", "blockchain_commit", none⟩]

/-- The step results of the first two steps of `fourSteps` under an
environment with `time_str = "0"` and `scored_at = "ts"`. -/
def rsC2 : List StepResult :=
  [{ status := "completed",
     output_data := some [("target_hash", .str "mock_hash_0"),
                          ("target_type", .str "image")] },
   { status := "completed",
     output_data := some [("score", .num 3 4), ("scored_at", .str "ts")] }]

/-- The success log entry of the one-step guidance workflow under
`wfEnvOk`. -/
def guideEntry : LogEntry :=
  .success 0 "Introduction" "participant_guidance"
    { status := "completed"
      guidance := some (.str "hi")
      output_data := some [("message", .str "hi")] }

/-! ## Dictionary lemmas -/

@[simp] theorem dictLookup_nil {α : Type} (k : String) :
    dictLookup ([] : List (String × α)) k = none := rfl

@[simp] theorem dictLookup_cons {α : Type} (p : String × α) (tl : List (String × α))
    (k : String) :
    dictLookup (p :: tl) k = if p.1 = k then some p.2 else dictLookup tl k := rfl

theorem dictLookup_dictSet {α : Type} (d : List (String × α)) (k k' : String) (v : α) :
    dictLookup (dictSet d k v) k' = if k = k' then some v else dictLookup d k' := by
  induction d with
  | nil =>
    by_cases h : k = k' <;> simp [dictSet, h]
  | cons p tl ih =>
    simp only [dictSet]
    by_cases hp : p.1 = k
    · simp only [if_pos hp, dictLookup_cons]
      by_cases h : k = k'
      · simp [h]
      · have hp' : ¬ p.1 = k' := by rw [hp]; exact h
        simp [h, hp']
    · simp only [if_neg hp, dictLookup_cons]
      by_cases h : p.1 = k'
      · have hkk : ¬ k = k' := fun hk => hp (by rw [hk]; exact h)
        simp [h, hkk]
      · simp [h, ih]

/-! ## C1 — Router fallback -/

/-- C1, counterexample: at `task = "t"`, with an unparseable backend reply,
the fallback plan's `routing` binds the default agent to the *routing
prompt*, not the original task text, so the plan does not map the default
agent to the task as the claim states. -/
theorem route_task_fallback_maps_prompt_not_task :
    (route_task (fun _ => "not json") (fun _ => none) "t" "None"
        "experiment_conductor").strategy = some "single" ∧
    (route_task (fun _ => "not json") (fun _ => none) "t" "None"
        "experiment_conductor").agents = some ["experiment_conductor"] ∧
    dictLookup ((route_task (fun _ => "not json") (fun _ => none) "t" "None"
        "experiment_conductor").routing.getD []) "experiment_conductor" =
      some (routing_prompt "t" "None" "experiment_conductor") ∧
    ¬ dictLookup ((route_task (fun _ => "not json") (fun _ => none) "t" "None"
        "experiment_conductor").routing.getD []) "experiment_conductor" =
      some "t" := by
  refine ⟨rfl, rfl, by simp [route_task, dictLookup], ?_⟩
  simp only [route_task, routing_prompt]
  decide

/-- C1 (amended): whenever the backend's reply for the routing prompt cannot
be parsed into the plan schema, `route_task` does not fail and returns the
deterministic default plan: `strategy = "single"`, `agents =
["experiment_conductor"]`, and `routing` binding the default agent to the
constructed routing prompt (which embeds the original task text), not to the
bare task. -/
theorem route_task_fallback (llm : String → String)
    (parse : String → Option RoutingPlan) (task ctxJson agentsJoined : String)
    (h : parse (llm (routing_prompt task ctxJson agentsJoined)) = none) :
    route_task llm parse task ctxJson agentsJoined =
      { strategy := some "single"
        agents := some ["experiment_conductor"]
        routing := some [("experiment_conductor",
          routing_prompt task ctxJson agentsJoined)] } := by
  simp [route_task, h]

/-- Witness for `route_task_fallback` at a concrete unparseable reply. -/
theorem route_task_fallback_witness :
    ((fun _ : String => (none : Option RoutingPlan))
        ((fun _ : String => "not json") (routing_prompt "t" "None" "ec")) = none) ∧
    route_task (fun _ => "not json") (fun _ => none) "t" "None" "ec" =
      { strategy := some "single"
        agents := some ["experiment_conductor"]
        routing := some [("experiment_conductor",
          routing_prompt "t" "None" "ec")] } :=
  ⟨rfl, route_task_fallback (fun _ => "not json") (fun _ => none) "t" "None" "ec" rfl⟩

/-! ## C10 — unknown strategy -/

/-- C10: when the plan's strategy is none of `"single"`, `"parallel"` or
`"sequential"`, no strategy branch matches, so no agent is ever invoked
(empty invocation trace) and the empty `agent_results` makes the passthrough
lookup raise `IndexError`, which the top-level handler converts into the
well-formed apology outcome with `strategy = "error"`. -/
theorem execute_task_unknown_strategy (env : TaskEnv) (plan : RoutingPlan)
    (task : String) (context : Ctx) (σ : List Nat) (s : String)
    (hs : plan.strategy = some s)
    (h1 : s ≠ "single") (h2 : s ≠ "parallel") (h3 : s ≠ "sequential") :
    execute_task env plan task context σ =
      ({ response := apology, strategy := "error",
         error := some "list index out of range" }, [], []) := by
  simp [execute_task, planned_run, run_strategy, final_response_step,
    hs, h1, h2, h3]

/-- Witness for `execute_task_unknown_strategy` at the declared-but-
unimplemented strategy `"iterative"`. -/
theorem execute_task_unknown_strategy_witness :
    ({ strategy := some "iterative", agents := some ["experiment_conductor"] } :
        RoutingPlan).strategy = some "iterative" ∧
    ("iterative" : String) ≠ "single" ∧
    ("iterative" : String) ≠ "parallel" ∧
    ("iterative" : String) ≠ "sequential" ∧
    execute_task sampleTaskEnv
        { strategy := some "iterative", agents := some ["experiment_conductor"] }
        "t" [] [] =
      ({ response := apology, strategy := "error",
         error := some "list index out of range" }, [], []) :=
  ⟨rfl, by decide, by decide, by decide,
   execute_task_unknown_strategy sampleTaskEnv
     { strategy := some "iterative", agents := some ["experiment_conductor"] }
     "t" [] [] "iterative" rfl (by decide) (by decide) (by decide)⟩

/-! ## C3 — single-result passthrough -/

/-- C3: when the strategy dispatch produces exactly one agent result, the
outcome's `response` is that result's response text verbatim and the
synthesis backend is never called (empty synthesis-call trace). -/
theorem single_result_passthrough (env : TaskEnv) (plan : RoutingPlan)
    (task : String) (context : Ctx) (σ : List Nat) (a : String) (r : AgentResult)
    (h : (planned_run env plan task context σ).1 = [(a, r)]) :
    (execute_task env plan task context σ).1.response = r.response.getD "" ∧
    (∀ s, r.response = some s →
      (execute_task env plan task context σ).1.response = s) ∧
    (execute_task env plan task context σ).2.2 = [] := by
  refine ⟨?_, ?_, ?_⟩
  · simp [execute_task, h, final_response_step]
  · intro s hs
    simp [execute_task, h, final_response_step, hs]
  · simp [execute_task, h, final_response_step]

/-- Witness for `single_result_passthrough` on a concrete single-agent
plan. -/
theorem single_result_passthrough_witness :
    (planned_run sampleTaskEnv singlePlan "t" [] []).1 =
      [("experiment_conductor", { response := some "hello" })] ∧
    (execute_task sampleTaskEnv singlePlan "t" [] []).1.response = "hello" ∧
    (execute_task sampleTaskEnv singlePlan "t" [] []).2.2 = [] := by
  have h : (planned_run sampleTaskEnv singlePlan "t" [] []).1 =
      [("experiment_conductor",
        ({ response := some "hello" } : AgentResult))] := by decide
  have hc := single_result_passthrough sampleTaskEnv singlePlan "t" [] []
    "experiment_conductor" { response := some "hello" } h
  exact ⟨h, hc.2.1 "hello" rfl, hc.2.2⟩

/-! ## C4 — synthesis on multiplicity -/

/-- C4: when the strategy dispatch produces two or more agent results, the
synthesis backend is called exactly once (a one-element synthesis-call
trace holding the synthesis prompt) and the outcome's `response` is that
call's reply content, unmodified. -/
theorem synthesis_on_multiplicity (env : TaskEnv) (plan : RoutingPlan)
    (task : String) (context : Ctx) (σ : List Nat)
    (h : 1 < (planned_run env plan task context σ).1.length) :
    (execute_task env plan task context σ).2.2 =
      [synthesis_prompt task (planned_run env plan task context σ).1] ∧
    (execute_task env plan task context σ).1.response =
      env.synth_content
        (synthesis_prompt task (planned_run env plan task context σ).1) := by
  have hfr : final_response_step env task (planned_run env plan task context σ).1 =
      .ok (env.synth_content
             (synthesis_prompt task (planned_run env plan task context σ).1),
           [synthesis_prompt task (planned_run env plan task context σ).1]) := by
    simp [final_response_step, h]
  constructor <;> simp [execute_task, hfr]

/-- Witness for `synthesis_on_multiplicity` on a concrete two-agent parallel
plan (completion order reversed). -/
theorem synthesis_on_multiplicity_witness :
    1 < (planned_run sampleTaskEnv parallelPlan "t" [] [1, 0]).1.length ∧
    (execute_task sampleTaskEnv parallelPlan "t" [] [1, 0]).2.2 =
      [synthesis_prompt "t" (planned_run sampleTaskEnv parallelPlan "t" [] [1, 0]).1] ∧
    (execute_task sampleTaskEnv parallelPlan "t" [] [1, 0]).1.response =
      sampleTaskEnv.synth_content
        (synthesis_prompt "t" (planned_run sampleTaskEnv parallelPlan "t" [] [1, 0]).1) := by
  have h : 1 < (planned_run sampleTaskEnv parallelPlan "t" [] [1, 0]).1.length := by
    decide
  have hc := synthesis_on_multiplicity sampleTaskEnv parallelPlan "t" [] [1, 0] h
  exact ⟨h, hc.1, hc.2⟩

/-! ## C5 — sequential context propagation -/

/-- In the sequential loop, each invocation after the first sees the caller's
context with `previous_agent_output` bound to the previous invocation's
response when that response is truthy, and the plain caller context
otherwise. -/
theorem seq_trace_succ_context (env : TaskEnv) (routing : List (String × String))
    (task : String) (context : Ctx) :
    ∀ (agents : List String) (prev : String) (i : Nat)
      (h : i + 1 < (seq_trace env routing task context agents prev).length),
      ((seq_trace env routing task context agents prev).get ⟨i + 1, h⟩).context =
        (if ((seq_trace env routing task context agents prev).get
              ⟨i, Nat.lt_of_succ_lt h⟩).result.response.getD "" = "" then context
         else dictSet context "previous_agent_output"
           (((seq_trace env routing task context agents prev).get
              ⟨i, Nat.lt_of_succ_lt h⟩).result.response.getD "")) := by
  intro agents
  induction agents with
  | nil =>
    intro prev i h
    simp [seq_trace] at h
  | cons a rest ih =>
    intro prev i h
    cases i with
    | zero =>
      cases rest with
      | nil => simp [seq_trace] at h
      | cons b rest' => simp [seq_trace]
    | succ j =>
      have h' : j + 1 <
          (seq_trace env routing task context rest
            ((call_agent env a (assigned_task routing a task)
              (if prev = "" then context
               else dictSet context "previous_agent_output" prev)).response.getD "")).length := by
        simpa [seq_trace] using h
      simpa [seq_trace] using ih _ j h'

/-- C5 (amended): in the sequential strategy the first agent is invoked with
the caller's context unchanged, and each later agent's recorded context is
the caller's context with `previous_agent_output` bound to the previous
agent's response text when that response is non-empty — when the previous
response is empty (or missing) the key is not injected and the context is
the caller's context unchanged.  (Invocations happen in list order: entry
`i + 1` of the trace is constructed from entry `i`'s returned result.) -/
theorem sequential_context_propagation (env : TaskEnv) (agents : List String)
    (routing : List (String × String)) (task : String) (context : Ctx) :
    (∀ (h0 : 0 < (run_sequential env agents routing task context).2.length),
       ((run_sequential env agents routing task context).2.get ⟨0, h0⟩).context =
         context) ∧
    (∀ (i : Nat) (h : i + 1 < (run_sequential env agents routing task context).2.length),
       ((run_sequential env agents routing task context).2.get ⟨i + 1, h⟩).context =
         (if ((run_sequential env agents routing task context).2.get
               ⟨i, Nat.lt_of_succ_lt h⟩).result.response.getD "" = "" then context
          else dictSet context "previous_agent_output"
            (((run_sequential env agents routing task context).2.get
               ⟨i, Nat.lt_of_succ_lt h⟩).result.response.getD ""))) := by
  constructor
  · intro h0
    cases agents with
    | nil => simp [run_sequential, seq_trace] at h0
    | cons a rest => simp [run_sequential, seq_trace]
  · intro i h
    exact seq_trace_succ_context env routing task context agents "" i h

/-- C5, counterexample: with a conductor that answers the empty string, the
second sequential agent's recorded context does *not* contain
`previous_agent_output`, although the first agent produced a response (the
empty text) — the `if previous_output:` truthiness guard skips the
injection. -/
theorem sequential_empty_response_counterexample :
    ((run_sequential emptyRespEnv ["experiment_conductor", "data_analyst"]
        [] "t" []).2.map (fun q => q.result.response)) =
      [some "", some "DataAnalyst integration pending for this task type"] ∧
    ((run_sequential emptyRespEnv ["experiment_conductor", "data_analyst"]
        [] "t" []).2.map (fun q => dictLookup q.context "previous_agent_output")) =
      [none, none] := by
  decide

/-- Witness for `sequential_context_propagation` on a concrete two-agent
sequential run with a truthy first response. -/
theorem sequential_context_propagation_witness :
    ((run_sequential sampleTaskEnv ["experiment_conductor", "data_analyst"]
        [] "t" []).2.get ⟨1, by decide⟩).context =
      (if ((run_sequential sampleTaskEnv ["experiment_conductor", "data_analyst"]
            [] "t" []).2.get ⟨0, by decide⟩).result.response.getD "" = ""
       then ([] : Ctx)
       else dictSet [] "previous_agent_output"
         (((run_sequential sampleTaskEnv ["experiment_conductor", "data_analyst"]
            [] "t" []).2.get ⟨0, by decide⟩).result.response.getD "")) :=
  (sequential_context_propagation sampleTaskEnv
    ["experiment_conductor", "data_analyst"] [] "t" []).2 0 (by decide)

/-! ## C6 — parallel order-invariance -/

theorem find_eq_self_of_mem (i : Nat) :
    ∀ (l : List Nat), i ∈ l → l.find? (fun j => j = i) = some i := by
  intro l
  induction l with
  | nil => intro h; simp at h
  | cons a tl ih =>
    intro h
    by_cases ha : a = i
    · subst ha
      exact List.find?_cons_of_pos _ (by simp)
    · rw [List.find?_cons_of_neg _ (by simp [ha])]
      refine ih ?_
      rcases List.mem_cons.mp h with h1 | h2
      · exact absurd h1.symm ha
      · exact h2

theorem range_map_getD {α : Type} (l : List α) (d : α) :
    (List.range l.length).map (fun i => l.getD i d) = l := by
  induction l with
  | nil => simp
  | cons a tl ih =>
    rw [List.length_cons, List.range_succ_eq_map, List.map_cons, List.map_map]
    have hc : ((fun i => (a :: tl).getD i d) ∘ Nat.succ) = fun i => tl.getD i d := by
      funext i
      simp
    rw [hc, ih]
    simp

/-- Reassembling the completion events of `asyncio.gather` by submission
index recovers the submitted order, whatever the completion schedule. -/
theorem gather_perm_eq (calls : List AgentResult) (σ : List Nat)
    (hσ : σ.Perm (List.range calls.length)) :
    gather calls σ = calls := by
  unfold gather gather_completions
  have hfind : ∀ i ∈ List.range calls.length,
      (((σ.map (fun j => (j, calls.getD j default))).find?
          (fun p => p.1 = i)).map (·.2)) = some (calls.getD i default) := by
    intro i hi
    have hmem : i ∈ σ := hσ.mem_iff.mpr hi
    rw [List.find?_map]
    have hcomp : ((fun p : Nat × AgentResult => decide (p.1 = i)) ∘
        (fun j => (j, calls.getD j default))) = fun j => decide (j = i) := rfl
    rw [hcomp, find_eq_self_of_mem i σ hmem]
    rfl
  rw [List.filterMap_congr hfind]
  have : (fun i => some (calls.getD i default)) =
      some ∘ (fun i => calls.getD i default) := rfl
  rw [this, List.filterMap_eq_map, range_map_getD]

theorem dictSet_append {α : Type} (acc : List (String × α)) (k : String) (v : α)
    (h : ∀ q ∈ acc, q.1 ≠ k) : dictSet acc k v = acc ++ [(k, v)] := by
  induction acc with
  | nil => rfl
  | cons p tl ih =>
    have hp : p.1 ≠ k := h p (by simp)
    simp only [dictSet, if_neg hp, List.cons_append, List.cons.injEq, true_and]
    exact ih (fun q hq => h q (by simp [hq]))

theorem foldl_dictSet_nodup {α : Type} :
    ∀ (l acc : List (String × α)),
      (∀ p ∈ l, ∀ q ∈ acc, q.1 ≠ p.1) → (l.map Prod.fst).Nodup →
      l.foldl (fun acc p => dictSet acc p.1 p.2) acc = acc ++ l := by
  intro l
  induction l with
  | nil => intro acc _ _; simp
  | cons p tl ih =>
    intro acc hd hnd
    simp only [List.foldl_cons]
    rw [dictSet_append acc p.1 p.2 (fun q hq => hd p (by simp) q hq)]
    rw [List.map_cons, List.nodup_cons] at hnd
    rw [ih (acc ++ [p]) ?_ hnd.2]
    · simp
    · intro x hx q hq
      rcases List.mem_append.mp hq with h1 | h2
      · exact hd x (by simp [hx]) q h1
      · have h2' : q = p := by simpa using h2
        subst h2'
        intro hcontra
        exact hnd.1 (by rw [hcontra]; exact List.mem_map_of_mem Prod.fst hx)

theorem zip_self_map {α β : Type} (l : List α) (f : α → β) :
    l.zip (l.map f) = l.map (fun a => (a, f a)) := by
  induction l with
  | nil => rfl
  | cons a tl ih => simp [ih]

/-- Under any completion schedule that is a permutation of the submission
indices, the parallel branch's `agent_results` dictionary is the fold of
`dictSet` over the agents zipped with their own invocations' results. -/
theorem run_parallel_eq (env : TaskEnv) (agents : List String)
    (routing : List (String × String)) (task : String) (context : Ctx)
    (σ : List Nat) (hσ : σ.Perm (List.range agents.length)) :
    (run_parallel env agents routing task context σ).1 =
      (agents.map (fun a =>
        (a, call_agent env a (assigned_task routing a task) context))).foldl
        (fun acc p => dictSet acc p.1 p.2) [] := by
  have hcalls : ((fun p : String × String => call_agent env p.1 p.2 context) ∘
      (fun a => (a, assigned_task routing a task))) =
      fun a => call_agent env a (assigned_task routing a task) context := rfl
  simp only [run_parallel, List.map_map, hcalls]
  rw [gather_perm_eq _ σ (by simpa using hσ)]
  rw [zip_self_map]

theorem run_parallel_trace_length (env : TaskEnv) (agents : List String)
    (routing : List (String × String)) (task : String) (context : Ctx)
    (σ : List Nat) :
    (run_parallel env agents routing task context σ).2.length = agents.length := by
  simp [run_parallel]

/-- C6: under the parallel strategy, for every completion order `σ` of the
concurrent invocations (any permutation of the submission indices), the
assembled `agent_results` dictionary is independent of `σ`: it binds the
agents in the declared `plan.agents` order, each to its own invocation's
result, and it holds one entry per invocation (the `gather` join consumes
every completion before assembly proceeds). -/
theorem parallel_order_invariance (env : TaskEnv) (agents : List String)
    (routing : List (String × String)) (task : String) (context : Ctx)
    (σ : List Nat) (hσ : σ.Perm (List.range agents.length))
    (hnd : agents.Nodup) :
    (run_parallel env agents routing task context σ).1 =
      agents.map (fun a =>
        (a, call_agent env a (assigned_task routing a task) context)) ∧
    (run_parallel env agents routing task context σ).1 =
      (run_parallel env agents routing task context
        (List.range agents.length)).1 ∧
    ((run_parallel env agents routing task context σ).1).map Prod.fst = agents ∧
    ((run_parallel env agents routing task context σ).1).length =
      agents.length := by
  have key : ∀ τ : List Nat, τ.Perm (List.range agents.length) →
      (run_parallel env agents routing task context τ).1 =
        agents.map (fun a =>
          (a, call_agent env a (assigned_task routing a task) context)) := by
    intro τ hτ
    rw [run_parallel_eq env agents routing task context τ hτ]
    rw [foldl_dictSet_nodup _ []
      (by simp) (by simpa [Function.comp_def] using hnd)]
    simp
  refine ⟨key σ hσ, ?_, ?_, ?_⟩
  · rw [key σ hσ, key (List.range agents.length) (List.Perm.refl _)]
  · rw [key σ hσ, List.map_map]
    simp [Function.comp_def]
  · rw [key σ hσ, List.length_map]

/-- Witness for `parallel_order_invariance`: three agents, completion order
fully reversed. -/
theorem parallel_order_invariance_witness :
    ([2, 1, 0] : List Nat).Perm (List.range 3) ∧
    (["experiment_conductor", "data_analyst", "x"] : List String).Nodup ∧
    ((run_parallel sampleTaskEnv ["experiment_conductor", "data_analyst", "x"]
        [] "t" [] [2, 1, 0]).1).map Prod.fst =
      ["experiment_conductor", "data_analyst", "x"] ∧
    (run_parallel sampleTaskEnv ["experiment_conductor", "data_analyst", "x"]
        [] "t" [] [2, 1, 0]).1 =
      (run_parallel sampleTaskEnv ["experiment_conductor", "data_analyst", "x"]
        [] "t" [] (List.range 3)).1 := by
  have hσ : ([2, 1, 0] : List Nat).Perm (List.range 3) := by decide
  have hnd : (["experiment_conductor", "data_analyst", "x"] : List String).Nodup := by
    decide
  have hc := parallel_order_invariance sampleTaskEnv
    ["experiment_conductor", "data_analyst", "x"] [] "t" [] [2, 1, 0]
    (by simpa using hσ) hnd
  exact ⟨hσ, hnd, hc.2.2.1, by simpa using hc.2.1⟩

/-! ## C7 — agent not found is an error result, not a fault -/

theorem call_agent_not_found (env : TaskEnv) (name task : String) (context : Ctx)
    (h : env.registry.contains name = false) :
    call_agent env name task context = not_found_result name := by
  unfold call_agent
  rw [if_pos]
  · rfl
  · simpa using h

theorem foldl_dictSet_recs (recs : List InvocationRec)
    (acc : List (String × AgentResult)) :
    recs.foldl (fun acc q => dictSet acc q.agent_name q.result) acc =
      (recs.map (fun q => (q.agent_name, q.result))).foldl
        (fun acc p => dictSet acc p.1 p.2) acc := by
  induction recs generalizing acc with
  | nil => rfl
  | cons q tl ih => simp [ih]

theorem seq_trace_names (env : TaskEnv) (routing : List (String × String))
    (task : String) (context : Ctx) :
    ∀ (agents : List String) (prev : String),
      (seq_trace env routing task context agents prev).map (·.agent_name) =
        agents := by
  intro agents
  induction agents with
  | nil => intro prev; rfl
  | cons a rest ih => intro prev; simp [seq_trace, ih]

theorem seq_trace_results (env : TaskEnv) (routing : List (String × String))
    (task : String) (context : Ctx) :
    ∀ (agents : List String) (prev : String),
      ∀ q ∈ seq_trace env routing task context agents prev,
        q.task = assigned_task routing q.agent_name task ∧
        q.result = call_agent env q.agent_name q.task q.context := by
  intro agents
  induction agents with
  | nil =>
    intro prev q hq
    simp [seq_trace] at hq
  | cons a rest ih =>
    intro prev q hq
    simp only [seq_trace, List.mem_cons] at hq
    rcases hq with h1 | h2
    · subst h1
      exact ⟨rfl, rfl⟩
    · exact ih _ q h2

theorem dictLookup_foldl_not_mem {α : Type} :
    ∀ (l acc : List (String × α)) (k : String),
      (∀ q ∈ l, q.1 ≠ k) →
      dictLookup (l.foldl (fun acc p => dictSet acc p.1 p.2) acc) k =
        dictLookup acc k := by
  intro l
  induction l with
  | nil => intro acc k _; rfl
  | cons p tl ih =>
    intro acc k h
    simp only [List.foldl_cons]
    rw [ih (dictSet acc p.1 p.2) k (fun q hq => h q (by simp [hq]))]
    rw [dictLookup_dictSet]
    have hp : ¬ p.1 = k := h p (by simp)
    simp [hp]

theorem dictLookup_foldl_all {α : Type} :
    ∀ (l acc : List (String × α)) (k : String) (v : α),
      (∃ q ∈ l, q.1 = k) → (∀ q ∈ l, q.1 = k → q.2 = v) →
      dictLookup (l.foldl (fun acc p => dictSet acc p.1 p.2) acc) k = some v := by
  intro l
  induction l with
  | nil =>
    intro acc k v hex _
    simp at hex
  | cons p tl ih =>
    intro acc k v hex hall
    simp only [List.foldl_cons]
    by_cases htl : ∃ q ∈ tl, q.1 = k
    · exact ih _ k v htl (fun q hq => hall q (by simp [hq]))
    · have hp : p.1 = k := by
        rcases hex with ⟨q, hq, hqk⟩
        rcases List.mem_cons.mp hq with h1 | h2
        · rw [← h1]; exact hqk
        · exact absurd ⟨q, h2, hqk⟩ htl
      have hv : p.2 = v := hall p (by simp) hp
      rw [dictLookup_foldl_not_mem tl _ k (fun q hq hqk => htl ⟨q, hq, hqk⟩)]
      rw [dictLookup_dictSet]
      simp [hp, hv]

/-- C7: invoking an agent whose name is absent from the registry does not
raise in any strategy.  `_call_agent` returns an `AgentResult` whose `error`
is `"agent_not_found"` and whose `response` is text; in the sequential and
parallel strategies every agent of the plan is still invoked (the trace has
one record per agent) and the error result is surfaced inside
`agent_results` under the missing agent's name; in the single strategy the
error result *is* the `agent_results` dictionary. -/
theorem agent_not_found_all_strategies (env : TaskEnv) (name : String)
    (h : env.registry.contains name = false) :
    (∀ task context, call_agent env name task context = not_found_result name) ∧
    (∀ (agents : List String) routing task context, name ∈ agents →
       (run_sequential env agents routing task context).2.length = agents.length ∧
       dictLookup (run_sequential env agents routing task context).1 name =
         some (not_found_result name)) ∧
    (∀ (agents : List String) routing task context (σ : List Nat),
       σ.Perm (List.range agents.length) → name ∈ agents →
       (run_parallel env agents routing task context σ).2.length = agents.length ∧
       dictLookup (run_parallel env agents routing task context σ).1 name =
         some (not_found_result name)) ∧
    (∀ (agents : List String) routing task context, agents.head? = some name →
       (run_single env agents routing task context).1 =
         [(name, not_found_result name)]) := by
  refine ⟨fun task context => call_agent_not_found env name task context h,
    ?_, ?_, ?_⟩
  · intro agents routing task context hmem
    constructor
    · calc (run_sequential env agents routing task context).2.length
          = ((seq_trace env routing task context agents "").map
              (·.agent_name)).length := by
            simp [run_sequential]
        _ = agents.length := by rw [seq_trace_names]
    · show dictLookup ((seq_trace env routing task context agents "").foldl
          (fun acc q => dictSet acc q.agent_name q.result) []) name = _
      rw [foldl_dictSet_recs]
      apply dictLookup_foldl_all
      · have hmem' : name ∈ (seq_trace env routing task context agents "").map
            (·.agent_name) := by
          rw [seq_trace_names]; exact hmem
        rcases List.mem_map.mp hmem' with ⟨q, hq, hqn⟩
        exact ⟨(q.agent_name, q.result), List.mem_map_of_mem _ hq, hqn⟩
      · intro p hp hpk
        rcases List.mem_map.mp hp with ⟨q, hq, hqp⟩
        have hres := (seq_trace_results env routing task context agents "" q hq).2
        have hqn : q.agent_name = name := by rw [← hqp] at hpk; exact hpk
        rw [← hqp]
        show q.result = not_found_result name
        rw [hres, hqn, call_agent_not_found env name _ _ h]
  · intro agents routing task context σ hσ hmem
    refine ⟨run_parallel_trace_length env agents routing task context σ, ?_⟩
    rw [run_parallel_eq env agents routing task context σ hσ]
    apply dictLookup_foldl_all
    · exact ⟨(name, call_agent env name (assigned_task routing name task) context),
        List.mem_map_of_mem _ hmem, rfl⟩
    · intro p hp hpk
      rcases List.mem_map.mp hp with ⟨a, _, hap⟩
      have han : a = name := by rw [← hap] at hpk; exact hpk
      rw [← hap]
      show call_agent env a (assigned_task routing a task) context =
        not_found_result name
      rw [han, call_agent_not_found env name _ _ h]
  · intro agents routing task context hhead
    cases agents with
    | nil => simp at hhead
    | cons a rest =>
      have ha : a = name := by simpa using hhead
      subst ha
      simp [run_single, call_agent_not_found env a _ _ h]

/-- Witness for `agent_not_found_all_strategies`: the unregistered agent
`"ghost"` in each strategy. -/
theorem agent_not_found_witness :
    sampleTaskEnv.registry.contains "ghost" = false ∧
    call_agent sampleTaskEnv "ghost" "t" [] = not_found_result "ghost" ∧
    (run_sequential sampleTaskEnv ["ghost", "experiment_conductor"] [] "t" []).2.length = 2 ∧
    dictLookup (run_sequential sampleTaskEnv ["ghost", "experiment_conductor"]
        [] "t" []).1 "ghost" = some (not_found_result "ghost") ∧
    dictLookup (run_parallel sampleTaskEnv ["ghost", "experiment_conductor"]
        [] "t" [] [1, 0]).1 "ghost" = some (not_found_result "ghost") ∧
    (run_single sampleTaskEnv ["ghost"] [] "t" []).1 =
      [("ghost", not_found_result "ghost")] := by
  have h : sampleTaskEnv.registry.contains "ghost" = false := by decide
  have hc := agent_not_found_all_strategies sampleTaskEnv "ghost" h
  refine ⟨h, hc.1 "t" [], ?_, ?_, ?_, ?_⟩
  · exact (hc.2.1 ["ghost", "experiment_conductor"] [] "t" [] (by decide)).1
  · exact (hc.2.1 ["ghost", "experiment_conductor"] [] "t" [] (by decide)).2
  · exact (hc.2.2.1 ["ghost", "experiment_conductor"] [] "t" [] [1, 0]
      (by decide) (by decide)).2
  · exact hc.2.2.2 ["ghost"] [] "t" [] rfl

/-! ## C2 — workflow fail-fast -/

theorem runsOk_length
    (exec : WorkflowStep → CollectedData → Except String StepResult) :
    ∀ (pre : List WorkflowStep) (data : CollectedData) (rs : List StepResult),
      runsOk exec pre data rs = true → rs.length = pre.length := by
  intro pre
  induction pre with
  | nil =>
    intro data rs h
    cases rs with
    | nil => rfl
    | cons r rs' => simp [runsOk] at h
  | cons s pre' ih =>
    intro data rs h
    cases rs with
    | nil => simp [runsOk] at h
    | cons r rs' =>
      simp only [runsOk, Bool.and_eq_true, decide_eq_true_eq] at h
      simp [ih _ _ h.2]

/-- Running a prefix of steps that all succeed advances the loop past the
prefix: the log gains the prefix's success entries, the data gains the
prefix's merged outputs, and the cursor advances by the prefix length. -/
theorem wf_loop_ok_steps
    (exec : WorkflowStep → CollectedData → Except String StepResult) :
    ∀ (pre : List WorkflowStep) (rs : List StepResult) (rest : List WorkflowStep)
      (data : CollectedData) (log : List LogEntry) (n : Nat),
      runsOk exec pre data rs = true →
      wf_loop exec (pre ++ rest) data log n =
        wf_loop exec rest (rs.foldl apply_output data)
          (log ++ successEntries pre rs) (n + pre.length) := by
  intro pre
  induction pre with
  | nil =>
    intro rs rest data log n h
    cases rs with
    | nil => simp [successEntries]
    | cons r rs' => simp [runsOk] at h
  | cons s pre' ih =>
    intro rs rest data log n h
    cases rs with
    | nil => simp [runsOk] at h
    | cons r rs' =>
      simp only [runsOk, Bool.and_eq_true, decide_eq_true_eq] at h
      simp only [List.cons_append, wf_loop, h.1, List.append_eq]
      rw [ih rs' rest (apply_output data r) _ (n + 1) h.2]
      have hlen : n + 1 + pre'.length = n + (pre'.length + 1) := by omega
      simp [successEntries, List.append_assoc, hlen]

/-- C2: if the first `k` step handlers return successfully (results `rs`,
`k = pre.length`) and the next handler raises, the run returns
`status = "failed"`, `steps_completed = k`, an execution log of exactly the
`k` success entries followed by one failure entry carrying the error (and,
being a failure entry, no result field), and `collected_data` equal to the
initial data merged with exactly the successful steps' `output_data` — the
failed and later steps contribute nothing and nothing is rolled back. -/
theorem workflow_fail_fast
    (exec : WorkflowStep → CollectedData → Except String StepResult)
    (pre : List WorkflowStep) (fstep : WorkflowStep) (post : List WorkflowStep)
    (initial : CollectedData) (rs : List StepResult) (e : String)
    (hpre : runsOk exec pre initial rs = true)
    (hfail : exec fstep (rs.foldl apply_output initial) = .error e) :
    (run_workflow exec (pre ++ fstep :: post) initial).status = "failed" ∧
    (run_workflow exec (pre ++ fstep :: post) initial).steps_completed =
      pre.length ∧
    (run_workflow exec (pre ++ fstep :: post) initial).execution_log =
      successEntries pre rs ++ [.failure fstep.order fstep.name e] ∧
    (run_workflow exec (pre ++ fstep :: post) initial).execution_log.length =
      pre.length + 1 ∧
    (run_workflow exec (pre ++ fstep :: post) initial).collected_data =
      rs.foldl apply_output initial := by
  have hloop : wf_loop exec (pre ++ fstep :: post) initial [] 0 =
      (successEntries pre rs ++ [.failure fstep.order fstep.name e],
       rs.foldl apply_output initial, pre.length) := by
    rw [wf_loop_ok_steps exec pre rs (fstep :: post) initial [] 0 hpre]
    simp [wf_loop, hfail]
  have hlen : (successEntries pre rs).length = pre.length := by
    have hr := runsOk_length exec pre initial rs hpre
    simp [successEntries, hr]
  have hne : ¬ (pre.length = (pre ++ fstep :: post).length) := by
    simp [List.length_append]
  refine ⟨?_, ?_, ?_, ?_, ?_⟩
  · simp only [run_workflow, hloop]
    rw [if_neg hne]
  · simp [run_workflow, hloop]
  · simp [run_workflow, hloop]
  · simp only [run_workflow, hloop]
    simp [List.length_append, hlen]
  · simp [run_workflow, hloop]

/-- Witness for `workflow_fail_fast`: the spec's four-step workflow whose
third step raises. -/
theorem workflow_fail_fast_witness :
    runsOk (dispatch_step wfEnvFail "u")
      [⟨0, "Gen", "target_generation", none⟩, ⟨1, "Score", "ai_scoring", none⟩]
      [] rsC2 = true ∧
    dispatch_step wfEnvFail "u"
      ⟨2, "Guide", "participant_guidance", some "experiment_conductor"⟩
      (rsC2.foldl apply_output []) = .error "boom" ∧
    (run_workflow (dispatch_step wfEnvFail "u")
        ([⟨0, "Gen", "target_generation", none⟩, ⟨1, "Score", "ai_scoring", none⟩] ++
          ⟨2, "Guide", "participant_guidance", some "experiment_conductor"⟩ ::
          [⟨3, "Commit", "blockchain_commit", none⟩]) []).status = "failed" ∧
    (run_workflow (dispatch_step wfEnvFail "u")
        ([⟨0, "Gen", "target_generation", none⟩, ⟨1, "Score", "ai_scoring", none⟩] ++
          ⟨2, "Guide", "participant_guidance", some "experiment_conductor"⟩ ::
          [⟨3, "Commit", "blockchain_commit", none⟩]) []).steps_completed = 2 ∧
    (run_workflow (dispatch_step wfEnvFail "u")
        ([⟨0, "Gen", "target_generation", none⟩, ⟨1, "Score", "ai_scoring", none⟩] ++
          ⟨2, "Guide", "participant_guidance", some "experiment_conductor"⟩ ::
          [⟨3, "Commit", "blockchain_commit", none⟩]) []).execution_log.length = 3 ∧
    (run_workflow (dispatch_step wfEnvFail "u")
        ([⟨0, "Gen", "target_generation", none⟩, ⟨1, "Score", "ai_scoring", none⟩] ++
          ⟨2, "Guide", "participant_guidance", some "experiment_conductor"⟩ ::
          [⟨3, "Commit", "blockchain_commit", none⟩]) []).collected_data =
      rsC2.foldl apply_output [] := by
  have h1 : runsOk (dispatch_step wfEnvFail "u")
      [⟨0, "Gen", "target_generation", none⟩, ⟨1, "Score", "ai_scoring", none⟩]
      [] rsC2 = true := by decide
  have h2 : dispatch_step wfEnvFail "u"
      ⟨2, "Guide", "participant_guidance", some "experiment_conductor"⟩
      (rsC2.foldl apply_output []) = .error "boom" := by decide
  have hc := workflow_fail_fast (dispatch_step wfEnvFail "u")
    [⟨0, "Gen", "target_generation", none⟩, ⟨1, "Score", "ai_scoring", none⟩]
    ⟨2, "Guide", "participant_guidance", some "experiment_conductor"⟩
    [⟨3, "Commit", "blockchain_commit", none⟩] [] rsC2 "boom" h1 h2
  exact ⟨h1, h2, hc.1, by simpa using hc.2.1, by simpa using hc.2.2.2.1,
    hc.2.2.2.2⟩

/-! ## C8 — status iff all steps completed -/

/-- C8: a workflow run reports `status = "completed"` exactly when
`steps_completed` equals `total_steps`; in particular the empty step list
yields `"completed"` with `steps_completed = 0`. -/
theorem workflow_status_iff_completed
    (exec : WorkflowStep → CollectedData → Except String StepResult)
    (steps : List WorkflowStep) (initial : CollectedData) :
    ((run_workflow exec steps initial).status = "completed" ↔
      (run_workflow exec steps initial).steps_completed =
        (run_workflow exec steps initial).total_steps) ∧
    (run_workflow exec [] initial).status = "completed" ∧
    (run_workflow exec [] initial).steps_completed = 0 := by
  refine ⟨?_, by simp [run_workflow, wf_loop], by simp [run_workflow, wf_loop]⟩
  by_cases h : (wf_loop exec steps initial [] 0).2.2 = steps.length
  · simp [run_workflow, h]
  · simp [run_workflow, h]

/-! ## C9 — execution-log entry shape -/

/-- The loop only ever appends to the log it is given. -/
theorem wf_loop_log_append
    (exec : WorkflowStep → CollectedData → Except String StepResult) :
    ∀ (steps : List WorkflowStep) (data : CollectedData) (log : List LogEntry)
      (n : Nat), ∃ tail, (wf_loop exec steps data log n).1 = log ++ tail := by
  intro steps
  induction steps with
  | nil =>
    intro data log n
    exact ⟨[], (List.append_nil log).symm⟩
  | cons s tl ih =>
    intro data log n
    cases hres : exec s data with
    | ok r =>
      rcases ih (apply_output data r)
        (log ++ [.success s.order s.name s.stepType r]) (n + 1) with ⟨t, ht⟩
      refine ⟨.success s.order s.name s.stepType r :: t, ?_⟩
      simp only [wf_loop, hres, ht, List.append_assoc, List.singleton_append]
    | error e =>
      exact ⟨[.failure s.order s.name e], by simp [wf_loop, hres]⟩

/-- The log grows by one entry per attempted step: its final length is the
number of completed steps, plus one when the run ended on a failure. -/
theorem wf_loop_log_length
    (exec : WorkflowStep → CollectedData → Except String StepResult) :
    ∀ (steps : List WorkflowStep) (data : CollectedData) (log : List LogEntry)
      (n : Nat),
      (wf_loop exec steps data log n).1.length + n =
        (wf_loop exec steps data log n).2.2 + log.length ∨
      (wf_loop exec steps data log n).1.length + n =
        (wf_loop exec steps data log n).2.2 + log.length + 1 := by
  intro steps
  induction steps with
  | nil =>
    intro data log n
    left
    simp [wf_loop]
    omega
  | cons s tl ih =>
    intro data log n
    cases hres : exec s data with
    | ok r =>
      rcases ih (apply_output data r)
        (log ++ [.success s.order s.name s.stepType r]) (n + 1) with h | h
      · left
        simp only [wf_loop, hres]
        simp [List.length_append] at h
        omega
      · right
        simp only [wf_loop, hres]
        simp [List.length_append] at h
        omega
    | error e =>
      right
      simp only [wf_loop, hres]
      simp [List.length_append]
      omega

/-- C9 (amended): every execution-log entry carries the step's order, the
step's name, a result or an error, and a timestamp, and entries are appended
(never mutated) in attempt order, one per attempted step; an entry carries
the step's type and a duration exactly when it is a success entry — the
failure entry of a raising step omits both. -/
theorem execution_log_entry_fields
    (exec : WorkflowStep → CollectedData → Except String StepResult)
    (steps : List WorkflowStep) (initial : CollectedData) :
    (∀ en ∈ (run_workflow exec steps initial).execution_log,
       en.hasStepOrder = true ∧ en.hasStepName = true ∧
       (en.hasResult = true ∨ en.hasError = true) ∧ en.hasTimestamp = true ∧
       en.hasStepType = en.hasResult ∧ en.hasDuration = en.hasResult) ∧
    ((run_workflow exec steps initial).execution_log.length =
        (run_workflow exec steps initial).steps_completed ∨
     (run_workflow exec steps initial).execution_log.length =
        (run_workflow exec steps initial).steps_completed + 1) ∧
    (∀ (log : List LogEntry) (data : CollectedData) (n : Nat),
       ∃ tail, (wf_loop exec steps data log n).1 = log ++ tail) := by
  refine ⟨?_, ?_, fun log data n => wf_loop_log_append exec steps data log n⟩
  · intro en _
    cases en with
    | success o nm t r => exact ⟨rfl, rfl, Or.inl rfl, rfl, rfl, rfl⟩
    | failure o nm e => exact ⟨rfl, rfl, Or.inr rfl, rfl, rfl, rfl⟩
  · rcases wf_loop_log_length exec steps initial [] 0 with h | h
    · left
      simp only [run_workflow]
      simp at h
      omega
    · right
      simp only [run_workflow]
      simp at h
      omega

/-- C9, counterexample: the log entry appended for a raising step is a
failure entry, which carries no step type and no duration — contradicting
the claim that every appended entry carries all of order, name, type,
result-or-error, duration and timestamp. -/
theorem failure_entry_lacks_type_and_duration :
    (execute_workflow wfEnvFail "u"
        [⟨0, "Introduction", "participant_guidance", some "experiment_conductor"⟩]
        []).execution_log = [.failure 0 "Introduction" "boom"] ∧
    LogEntry.hasStepType (.failure 0 "Introduction" "boom") = false ∧
    LogEntry.hasDuration (.failure 0 "Introduction" "boom") = false := by
  decide

/-- Witness for `execution_log_entry_fields` on a concrete successful
one-step guidance run. -/
theorem execution_log_entry_fields_witness :
    guideEntry.hasStepOrder = true ∧ guideEntry.hasStepName = true ∧
    (guideEntry.hasResult = true ∨ guideEntry.hasError = true) ∧
    guideEntry.hasTimestamp = true ∧
    guideEntry.hasStepType = guideEntry.hasResult ∧
    guideEntry.hasDuration = guideEntry.hasResult :=
  (execution_log_entry_fields (dispatch_step wfEnvOk "u")
    [⟨0, "Introduction", "participant_guidance", some "experiment_conductor"⟩]
    []).1 guideEntry (by decide)

end Cognosis
